import Mathlib

/-!
Shallow embedding of the WebTUIO controller core: the TUIO service
(session-id counter, message constructors, cursor physics, packet
framing) and the input-event router (touch start/move/end/cancel
handling over a JS-`Map`-like association list of active cursors).

JS `number` values are modelled as real numbers; the wall-clock and
performance timestamps that the code reads internally are passed as
explicit parameters; `JSON.stringify` output is modelled as the JSON
value tree it serializes.
-/

namespace WebTuio

/-- An OSC argument as the code stores it: a string or a JS number. -/
inductive OSCArg where
  | s (v : String)
  | n (v : ℝ)

instance : Inhabited OSCArg := ⟨.s ""⟩

/-- An OSC message: address plus ordered argument list (types.ts). -/
structure OSCMessage where
  address : String
  args : List OSCArg

instance : Inhabited OSCMessage := ⟨⟨"", []⟩⟩

/-- constants.ts: the fixed TUIO profile path. -/
def TUIO_PROFILE : String := "/tuio/2Dcur"

/-- constants.ts: the fixed source name. -/
def SOURCE_NAME : String := "WebTUIO@webclient"

/-- A TUIO cursor (types.ts): session id plus kinematic state.
The code only ever stores counter values (naturals) in sessionId. -/
structure TuioCursor where
  sessionId : ℕ
  x : ℝ
  y : ℝ
  vx : ℝ
  vy : ℝ
  a : ℝ
  lastTime : ℝ

/-- tuioService: the session-id counter step.  The code does
counter++; if counter > 10000 then counter = 0; return counter.
Returns (new counter value, returned session id); they coincide. -/
def getNextSessionId (counter : ℕ) : ℕ × ℕ :=
  let c := counter + 1
  let c' := if c > 10000 then 0 else c
  (c', c')

/-- tuioService.createSourceMessage. -/
def createSourceMessage : OSCMessage :=
  ⟨TUIO_PROFILE, [.s "source", .s SOURCE_NAME]⟩

/-- tuioService.createAliveMessage: lists all active session IDs. -/
def createAliveMessage (activeIds : List ℕ) : OSCMessage :=
  ⟨TUIO_PROFILE, .s "alive" :: activeIds.map (fun i => .n (i : ℝ))⟩

/-- tuioService.createFseqMessage: advances the frame-sequence counter
by fseq = (fseq + 1) % 2147483648 and emits ['fseq', fseq].  The
module-level mutable counter is passed and returned explicitly. -/
def createFseqMessage (fseq : ℤ) : ℤ × OSCMessage :=
  let fseq' := (fseq + 1) % 2147483648
  (fseq', ⟨TUIO_PROFILE, [.s "fseq", .n (fseq' : ℝ)]⟩)

/-- tuioService.createSetMessage: /tuio/2Dcur set s x y X Y m.
The session id goes through Math.floor; callers pass a scale argument
(settings.coordinateScale) that the function signature does not
declare, so JS ignores it — modelled as an unused parameter. -/
noncomputable def createSetMessage (cursor : TuioCursor) (scale : ℝ) : OSCMessage :=
  ⟨TUIO_PROFILE,
    [.s "set",
     .n ((⌊(cursor.sessionId : ℝ)⌋ : ℤ) : ℝ),
     .n cursor.x,
     .n cursor.y,
     .n cursor.vx,
     .n cursor.vy,
     .n cursor.a]⟩

/-- tuioService.updateCursorPhysics: finite-difference velocity and
acceleration update.  The code reads now = performance.now() itself;
here now is an explicit parameter (milliseconds). -/
noncomputable def updateCursorPhysics (current : TuioCursor)
    (newX newY : ℝ) (now : ℝ) : TuioCursor :=
  let dt := (now - current.lastTime) / 1000
  if dt ≤ 0.001 then
    { current with x := newX, y := newY, lastTime := now }
  else
    let dx := newX - current.x
    let dy := newY - current.y
    let newVx := dx / dt
    let newVy := dy / dt
    let dv := Real.sqrt ((newVx - current.vx) ^ 2 + (newVy - current.vy) ^ 2)
    let newA := dv / dt
    ⟨current.sessionId, newX, newY, newVx, newVy, newA, now⟩

/-- tuioService.createNewCursor: acquires a session id from the
counter and starts with zero velocity and acceleration. -/
def createNewCursor (x y : ℝ) (now : ℝ) (counter : ℕ) : ℕ × TuioCursor :=
  let p := getNextSessionId counter
  (p.1, ⟨p.2, x, y, 0, 0, 0, now⟩)

/-- JS Map.get on an insertion-ordered association list. -/
def mapGet (m : List (ℕ × TuioCursor)) (k : ℕ) : Option TuioCursor :=
  (m.find? (fun p => p.1 == k)).map (fun p => p.2)

/-- JS Map.set: replaces in place when the key exists, else appends. -/
def mapSet (m : List (ℕ × TuioCursor)) (k : ℕ) (v : TuioCursor) :
    List (ℕ × TuioCursor) :=
  match m with
  | [] => [(k, v)]
  | p :: rest => if p.1 = k then (k, v) :: rest else p :: mapSet rest k v

/-- JS Map.delete: removes the entry with the given key. -/
def mapDelete (m : List (ℕ × TuioCursor)) (k : ℕ) :
    List (ℕ × TuioCursor) :=
  m.filter (fun p => p.1 != k)

/-- The four raw pointer event types processTouch distinguishes
('end' is a Lean keyword, hence fin). -/
inductive TouchEventType where
  | start
  | move
  | fin
  | cancel

/-- One raw pointer event after coordinate normalization: type,
external touch identifier, normalized coordinates, timestamp. -/
structure TouchEvt where
  type : TouchEventType
  id : ℕ
  x : ℝ
  y : ℝ
  now : ℝ

/-- Router state: the module-level session-id counter and frame
sequence counter of tuioService, and the cursorsRef Map keyed by
external touch identifier. -/
structure RouterState where
  counter : ℕ
  fseq : ℤ
  cursors : List (ℕ × TuioCursor)

/-- Fresh state: both counters 0, no active cursors. -/
def initState : RouterState := ⟨0, 0, []⟩

/-- The cursor-map effect of one changed touch in processTouch:
start creates a cursor, move updates physics when the identifier is
present (and is ignored otherwise), end/cancel delete the entry. -/
noncomputable def applyTouch (s : RouterState) (e : TouchEvt) : RouterState :=
  match e.type with
  | .start =>
      let p := createNewCursor e.x e.y e.now s.counter
      { s with counter := p.1, cursors := mapSet s.cursors e.id p.2 }
  | .move =>
      match mapGet s.cursors e.id with
      | some existing =>
          { s with cursors :=
              mapSet s.cursors e.id (updateCursorPhysics existing e.x e.y e.now) }
      | none => s
  | .fin => { s with cursors := mapDelete s.cursors e.id }
  | .cancel => { s with cursors := mapDelete s.cursors e.id }

/-- Folds a sequence of pointer events through the router. -/
noncomputable def applyEvents (s : RouterState) (es : List TouchEvt) : RouterState :=
  es.foldl applyTouch s

/-- Whether an event is a start (a session-id acquisition). -/
def isStart (e : TouchEvt) : Bool :=
  match e.type with
  | .start => true
  | _ => false

/-- Number of session-id acquisitions a sequence performs. -/
def numStarts (es : List TouchEvt) : ℕ := es.countP isStart

/-- The frame processTouch builds after updating the cursor map:
source first, one set per active cursor in map order, one alive over
the active session ids, one fseq. -/
noncomputable def routerStep (s : RouterState) (e : TouchEvt) (scale : ℝ) :
    RouterState × List OSCMessage :=
  let s' := applyTouch s e
  let f := createFseqMessage s.fseq
  ({ s' with fseq := f.1 },
   createSourceMessage ::
     (s'.cursors.map (fun p => createSetMessage p.2 scale) ++
       [createAliveMessage (s'.cursors.map (fun p => p.2.sessionId)), f.2]))

/-- The heartbeat frame the periodic loop builds (same construction,
no cursor-map change). -/
noncomputable def periodicStep (s : RouterState) (scale : ℝ) :
    RouterState × List OSCMessage :=
  let f := createFseqMessage s.fseq
  ({ s with fseq := f.1 },
   createSourceMessage ::
     (s.cursors.map (fun p => createSetMessage p.2 scale) ++
       [createAliveMessage (s.cursors.map (fun p => p.2.sessionId)), f.2]))

/-- A JSON value, the abstract shape of what JSON.stringify renders. -/
inductive JVal where
  | str (v : String)
  | num (v : ℝ)
  | bool (v : Bool)
  | arr (elems : List JVal)
  | obj (fields : List (String × JVal))

/-- The JSON value of one OSC argument. -/
def argToJson : OSCArg → JVal
  | .s v => .str v
  | .n v => .num v

/-- The JSON value of one OSC message object. -/
def msgToJson (m : OSCMessage) : JVal :=
  .obj [("address", .str m.address), ("args", .arr (m.args.map argToJson))]

/-- Whether a JSON object has a top-level field with the given key. -/
def jsonHasField (v : JVal) (k : String) : Bool :=
  match v with
  | .obj fields => fields.any (fun p => p.1 == k)
  | _ => false

/-- The app settings record (types.ts / constants.ts). -/
structure AppSettings where
  host : String
  port : ℕ
  periodicUpdates : Bool
  fullBundle : Bool
  blobMessages : Bool
  invertY : Bool
  coordinateScale : ℝ

/-- constants.ts DEFAULT_SETTINGS. -/
def DEFAULT_SETTINGS : AppSettings :=
  ⟨"127.0.0.1", 8080, true, true, false, false, 1.0⟩

/-- tuioService.generatePacket: fullBundle wraps everything in a
{timeTag, packets} bundle stamped with Date.now() (passed here as the
explicit now parameter); otherwise a single message is serialized
bare, and two or more fall back to a {bundle: true, packets} object. -/
def generatePacket (messages : List OSCMessage) (settings : AppSettings)
    (now : ℝ) : JVal :=
  if settings.fullBundle then
    .obj [("timeTag", .num now), ("packets", .arr (messages.map msgToJson))]
  else
    if messages.length = 1 then
      msgToJson messages.headI
    else
      .obj [("bundle", .bool true), ("packets", .arr (messages.map msgToJson))]

/-! ### Helper definitions for the counter claims -/

/-- Session-id counter value after n acquisitions from a fresh counter. -/
def counterAfter : ℕ → ℕ
  | 0 => 0
  | n + 1 => (getNextSessionId (counterAfter n)).1

/-- Session id returned by the n-th acquisition (counting from 1)
from a fresh counter. -/
def nthSessionId (n : ℕ) : ℕ := (getNextSessionId (counterAfter (n - 1))).2

/-- Frame-sequence counter value after n emitted frames from a fresh
counter. -/
def fseqAfter : ℕ → ℤ
  | 0 => 0
  | n + 1 => (createFseqMessage (fseqAfter n)).1

lemma counterAfter_eq (n : ℕ) (h : n ≤ 10000) : counterAfter n = n := by
  induction n with
  | zero => rfl
  | succ k ih =>
    have hk : counterAfter k = k := ih (Nat.le_of_succ_le h)
    simp only [counterAfter, getNextSessionId, hk]
    rw [if_neg (by omega)]

lemma fseqAfter_eq (n : ℕ) : fseqAfter n = (n : ℤ) % 2147483648 := by
  induction n with
  | zero => rfl
  | succ k ih =>
    simp only [fseqAfter, createFseqMessage, ih]
    push_cast
    omega

lemma updateCursorPhysics_sessionId (c : TuioCursor) (x y t : ℝ) :
    (updateCursorPhysics c x y t).sessionId = c.sessionId := by
  simp only [updateCursorPhysics]
  split_ifs <;> rfl

/-! ### Claim theorems: physics estimator -/

/-- C1: when dt = (now - lastSampleTime)/1000 exceeds 0.001 seconds,
updateCursorPhysics returns velocities vx' = (newX - x)/dt and
vy' = (newY - y)/dt and acceleration sqrt((vx'-vx)^2 + (vy'-vy)^2)/dt. -/
theorem updateCursorPhysics_formula (current : TuioCursor)
    (newX newY now dt : ℝ) (hdt : dt = (now - current.lastTime) / 1000)
    (h : 0.001 < dt) :
    updateCursorPhysics current newX newY now =
      ⟨current.sessionId, newX, newY,
        (newX - current.x) / dt,
        (newY - current.y) / dt,
        Real.sqrt (((newX - current.x) / dt - current.vx) ^ 2 +
          ((newY - current.y) / dt - current.vy) ^ 2) / dt,
        now⟩ := by
  subst hdt
  simp only [updateCursorPhysics]
  rw [if_neg (not_le.mpr h)]

/-- Witness for C1: the spec scenario dt = 1, prior state all zero,
newX = 1, newY = 0 gives vx' = 1, vy' = 0, a' = 1. -/
theorem updateCursorPhysics_formula_witness :
    (0.001 : ℝ) < ((1000 : ℝ) - 0) / 1000 ∧
    (updateCursorPhysics ⟨0, 0, 0, 0, 0, 0, 0⟩ 1 0 1000).vx = 1 ∧
    (updateCursorPhysics ⟨0, 0, 0, 0, 0, 0, 0⟩ 1 0 1000).vy = 0 ∧
    (updateCursorPhysics ⟨0, 0, 0, 0, 0, 0, 0⟩ 1 0 1000).a = 1 := by
  have e := updateCursorPhysics_formula ⟨0, 0, 0, 0, 0, 0, 0⟩ 1 0 1000
    (((1000 : ℝ) - 0) / 1000) rfl (by norm_num)
  refine ⟨by norm_num, ?_, ?_, ?_⟩ <;>
    rw [e] <;> norm_num

/-- C2: when dt ≤ 0.001 (including zero and negative dt), the update
is position-only: x, y and the timestamp come from the inputs and
vx, vy, a are unchanged. -/
theorem updateCursorPhysics_small_dt (current : TuioCursor)
    (newX newY now : ℝ) (h : (now - current.lastTime) / 1000 ≤ 0.001) :
    updateCursorPhysics current newX newY now =
      { current with x := newX, y := newY, lastTime := now } := by
  simp only [updateCursorPhysics]
  rw [if_pos h]

/-- Witness for C2: a duplicate-timestamp sample (dt = 0) keeps
vx = 5, vy = 6, a = 7 and only moves the position. -/
theorem updateCursorPhysics_small_dt_witness :
    ((100 : ℝ) - 100) / 1000 ≤ 0.001 ∧
    updateCursorPhysics ⟨3, 0.2, 0.3, 5, 6, 7, 100⟩ 0.9 0.8 100 =
      ⟨3, 0.9, 0.8, 5, 6, 7, 100⟩ := by
  refine ⟨by norm_num, ?_⟩
  rw [updateCursorPhysics_small_dt ⟨3, 0.2, 0.3, 5, 6, 7, 100⟩ 0.9 0.8 100
    (by norm_num)]

/-! ### Claim theorems: message builder counters -/

/-- C6: the set message is addressed at /tuio/2Dcur with args exactly
["set", floor(sessionId), x, y, vx, vy, a] taken from the cursor, and
the scale argument is never applied (any two scales give the same
message). -/
theorem createSetMessage_args (cursor : TuioCursor) (scale scale' : ℝ) :
    createSetMessage cursor scale =
      ⟨"/tuio/2Dcur",
        [.s "set", .n (cursor.sessionId : ℝ), .n cursor.x, .n cursor.y,
         .n cursor.vx, .n cursor.vy, .n cursor.a]⟩ ∧
    createSetMessage cursor scale = createSetMessage cursor scale' := by
  constructor
  · simp [createSetMessage, TUIO_PROFILE, Int.floor_natCast]
  · rfl

/-- C7: each acquisition returns the incremented counter, which resets
to 0 once it exceeds 10000: every returned id is at most 10000, the
n-th acquisition from a fresh counter returns n for 1 ≤ n ≤ 10000, and
the 10001-st returns 0. -/
theorem getNextSessionId_spec :
    (∀ c : ℕ, (getNextSessionId c).2 ≤ 10000) ∧
    (∀ n : ℕ, 1 ≤ n → n ≤ 10000 → nthSessionId n = n) ∧
    nthSessionId 10001 = 0 := by
  refine ⟨?_, ?_, ?_⟩
  · intro c
    simp only [getNextSessionId]
    split_ifs <;> omega
  · intro n h1 h2
    unfold nthSessionId
    rw [counterAfter_eq (n - 1) (by omega)]
    simp only [getNextSessionId]
    split_ifs with h <;> omega
  · unfold nthSessionId
    rw [counterAfter_eq 10000 (by omega)]
    simp [getNextSessionId]

/-- Witness for C7: the third acquisition from a fresh counter returns 3. -/
theorem getNextSessionId_spec_witness :
    1 ≤ 3 ∧ 3 ≤ 10000 ∧ nthSessionId 3 = 3 :=
  ⟨by decide, by decide, getNextSessionId_spec.2.1 3 (by decide) (by decide)⟩

/-- C8: the frame-sequence counter advances by exactly one modulo 2^31
on every createFseqMessage call, is never negative, and the 2^31-th
call from a fresh counter wraps back to 0. -/
theorem createFseqMessage_wrap :
    (∀ n : ℕ, fseqAfter (n + 1) = (fseqAfter n + 1) % 2147483648) ∧
    (∀ f : ℤ, 0 ≤ (createFseqMessage f).1) ∧
    (∀ n : ℕ, 0 ≤ fseqAfter n) ∧
    fseqAfter 2147483648 = 0 := by
  refine ⟨fun n => rfl, ?_, ?_, ?_⟩
  · intro f
    simp only [createFseqMessage]
    omega
  · intro n
    rw [fseqAfter_eq]
    omega
  · rw [fseqAfter_eq]
    norm_num

/-! ### Claim theorem: orphan move -/

/-- C9: a move event whose external identifier is absent from the
active-cursor map leaves the router state entirely unchanged: no
cursor is created or modified and no session id is acquired. -/
theorem move_absent_noop (s : RouterState) (id : ℕ) (x y now : ℝ)
    (h : mapGet s.cursors id = none) :
    applyTouch s ⟨.move, id, x, y, now⟩ = s := by
  simp [applyTouch, h]

/-- Witness for C9: after start(id=7) then end(id=7), a trailing
move(id=7) is a no-op. -/
theorem move_absent_noop_witness :
    mapGet (applyEvents initState
      [⟨.start, 7, 0.2, 0.3, 0⟩, ⟨.fin, 7, 0, 0, 1⟩]).cursors 7 = none ∧
    applyTouch
      (applyEvents initState [⟨.start, 7, 0.2, 0.3, 0⟩, ⟨.fin, 7, 0, 0, 1⟩])
      ⟨.move, 7, 0.5, 0.5, 2⟩ =
      applyEvents initState [⟨.start, 7, 0.2, 0.3, 0⟩, ⟨.fin, 7, 0, 0, 1⟩] :=
  ⟨rfl, move_absent_noop _ 7 0.5 0.5 2 rfl⟩

/-! ### Claim theorems: packet framing -/

/-- C5: with fullBundle the encoder emits the {timeTag, packets}
envelope stamped with the wall-clock milliseconds and the ordered
message list; without fullBundle a single message is serialized bare
(no packets wrapper) and two or more messages fall back to a bundle
wrapper carrying the ordered list. -/
theorem generatePacket_policy (ms : List OSCMessage)
    (settings : AppSettings) (now : ℝ) :
    (settings.fullBundle = true →
      generatePacket ms settings now =
        .obj [("timeTag", .num now), ("packets", .arr (ms.map msgToJson))]) ∧
    (settings.fullBundle = false → ∀ m : OSCMessage, ms = [m] →
      generatePacket ms settings now = msgToJson m ∧
      jsonHasField (msgToJson m) "packets" = false) ∧
    (settings.fullBundle = false → 2 ≤ ms.length →
      generatePacket ms settings now =
        .obj [("bundle", .bool true), ("packets", .arr (ms.map msgToJson))]) := by
  refine ⟨?_, ?_, ?_⟩
  · intro h
    simp [generatePacket, h]
  · intro h m hm
    subst hm
    exact ⟨by simp [generatePacket, h], by simp [jsonHasField, msgToJson]⟩
  · intro h hlen
    have hne : ms.length ≠ 1 := by omega
    simp [generatePacket, h, hne]

/-- Witness for C5: one message is encoded bare, two fall back to the
bundle wrapper. -/
theorem generatePacket_policy_witness :
    ({ DEFAULT_SETTINGS with fullBundle := false } : AppSettings).fullBundle
        = false ∧
    generatePacket [⟨"/tuio/2Dcur", [.s "alive"]⟩]
        { DEFAULT_SETTINGS with fullBundle := false } 0 =
      msgToJson ⟨"/tuio/2Dcur", [.s "alive"]⟩ ∧
    generatePacket [⟨"/tuio/2Dcur", [.s "alive"]⟩, ⟨"/tuio/2Dcur", [.s "fseq"]⟩]
        { DEFAULT_SETTINGS with fullBundle := false } 0 =
      .obj [("bundle", .bool true),
            ("packets", .arr ([(⟨"/tuio/2Dcur", [.s "alive"]⟩ : OSCMessage),
              ⟨"/tuio/2Dcur", [.s "fseq"]⟩].map msgToJson))] := by
  refine ⟨rfl, ?_, ?_⟩
  · exact ((generatePacket_policy [⟨"/tuio/2Dcur", [.s "alive"]⟩]
      { DEFAULT_SETTINGS with fullBundle := false } 0).2.1 rfl
      ⟨"/tuio/2Dcur", [.s "alive"]⟩ rfl).1
  · exact (generatePacket_policy
      [⟨"/tuio/2Dcur", [.s "alive"]⟩, ⟨"/tuio/2Dcur", [.s "fseq"]⟩]
      { DEFAULT_SETTINGS with fullBundle := false } 0).2.2 rfl (by simp)

/-- C10: the non-fullBundle fallback for two or more messages is the
object with fields bundle = true and packets = the ordered message
list and no timeTag field, while the fullBundle envelope carries a
timeTag and no bundle flag. -/
theorem generatePacket_fallback_shape (ms : List OSCMessage)
    (settings : AppSettings) (now : ℝ)
    (h : settings.fullBundle = false) (hlen : 2 ≤ ms.length) :
    generatePacket ms settings now =
      .obj [("bundle", .bool true), ("packets", .arr (ms.map msgToJson))] ∧
    jsonHasField (generatePacket ms settings now) "timeTag" = false ∧
    jsonHasField (generatePacket ms settings now) "bundle" = true ∧
    jsonHasField (generatePacket ms { settings with fullBundle := true } now)
      "timeTag" = true ∧
    jsonHasField (generatePacket ms { settings with fullBundle := true } now)
      "bundle" = false := by
  have hne : ms.length ≠ 1 := by omega
  have e : generatePacket ms settings now =
      .obj [("bundle", .bool true), ("packets", .arr (ms.map msgToJson))] := by
    simp [generatePacket, h, hne]
  have e' : generatePacket ms { settings with fullBundle := true } now =
      .obj [("timeTag", .num now), ("packets", .arr (ms.map msgToJson))] := by
    simp [generatePacket]
  rw [e, e']
  refine ⟨rfl, ?_, ?_, ?_, ?_⟩ <;> simp [jsonHasField]

/-- Witness for C10: a concrete two-message fallback object. -/
theorem generatePacket_fallback_shape_witness :
    (DEFAULT_SETTINGS.port = 8080 ∧
      ({ DEFAULT_SETTINGS with fullBundle := false } : AppSettings).fullBundle
        = false) ∧
    jsonHasField (generatePacket
      [⟨"/tuio/2Dcur", [.s "source"]⟩, ⟨"/tuio/2Dcur", [.s "fseq"]⟩]
      { DEFAULT_SETTINGS with fullBundle := false } 5) "timeTag" = false ∧
    jsonHasField (generatePacket
      [⟨"/tuio/2Dcur", [.s "source"]⟩, ⟨"/tuio/2Dcur", [.s "fseq"]⟩]
      { DEFAULT_SETTINGS with fullBundle := false } 5) "bundle" = true := by
  have h := generatePacket_fallback_shape
    [⟨"/tuio/2Dcur", [.s "source"]⟩, ⟨"/tuio/2Dcur", [.s "fseq"]⟩]
    { DEFAULT_SETTINGS with fullBundle := false } 5 rfl (by simp)
  exact ⟨⟨rfl, rfl⟩, h.2.1, h.2.2.1⟩

/-! ### Claim theorem: frame shape -/

/-- C4: every frame the router builds — on any start/move/end/cancel
event and on the periodic heartbeat — is the source message first,
then exactly one set message per active cursor, then one alive message
listing exactly the active session ids, then one fseq message; with
zero cursors the frame is just source, an alive with no ids, and fseq. -/
theorem frame_shape (s : RouterState) (e : TouchEvt) (scale : ℝ) :
    ((routerStep s e scale).2 =
      createSourceMessage ::
        ((applyTouch s e).cursors.map (fun p => createSetMessage p.2 scale) ++
          [createAliveMessage
             ((applyTouch s e).cursors.map (fun p => p.2.sessionId)),
           (createFseqMessage s.fseq).2])) ∧
    ((periodicStep s scale).2 =
      createSourceMessage ::
        (s.cursors.map (fun p => createSetMessage p.2 scale) ++
          [createAliveMessage (s.cursors.map (fun p => p.2.sessionId)),
           (createFseqMessage s.fseq).2])) ∧
    ((applyTouch s e).cursors = [] →
      (routerStep s e scale).2 =
        [createSourceMessage, createAliveMessage [],
         (createFseqMessage s.fseq).2]) := by
  refine ⟨rfl, rfl, fun h => ?_⟩
  simp [routerStep, h]

/-- Witness for C4: an end event on the empty state yields the
three-message frame with an empty alive and no set messages. -/
theorem frame_shape_witness :
    (applyTouch initState ⟨.fin, 0, 0, 0, 0⟩).cursors = [] ∧
    (routerStep initState ⟨.fin, 0, 0, 0, 0⟩ 1).2 =
      [createSourceMessage, createAliveMessage [],
       (createFseqMessage 0).2] :=
  ⟨rfl, (frame_shape initState ⟨.fin, 0, 0, 0, 0⟩ 1).2.2 rfl⟩

/-! ### Session-id uniqueness invariant -/

/-- Two map entries carry different session ids. -/
abbrev SidNe (p q : ℕ × TuioCursor) : Prop :=
  p.2.sessionId ≠ q.2.sessionId

/-- Router-state invariant: keys are unique (a JS Map property), every
stored session id is bounded by the counter, and session ids are
pairwise distinct. -/
def Inv (s : RouterState) : Prop :=
  (s.cursors.map Prod.fst).Nodup ∧
  (∀ p ∈ s.cursors, p.2.sessionId ≤ s.counter) ∧
  s.cursors.Pairwise SidNe

lemma mapSet_mem {m : List (ℕ × TuioCursor)} {k : ℕ} {v : TuioCursor}
    {p : ℕ × TuioCursor} (hp : p ∈ mapSet m k v) : p = (k, v) ∨ p ∈ m := by
  induction m with
  | nil =>
    simp only [mapSet, List.mem_singleton] at hp
    exact Or.inl hp
  | cons q rest ih =>
    simp only [mapSet] at hp
    split_ifs at hp with hq
    · rcases List.mem_cons.mp hp with h | h
      · exact Or.inl h
      · exact Or.inr (List.mem_cons_of_mem _ h)
    · rcases List.mem_cons.mp hp with h | h
      · exact Or.inr (h ▸ List.mem_cons_self _ _)
      · rcases ih h with h' | h'
        · exact Or.inl h'
        · exact Or.inr (List.mem_cons_of_mem _ h')

lemma mapSet_keys_nodup {m : List (ℕ × TuioCursor)} {k : ℕ} {v : TuioCursor}
    (h : (m.map Prod.fst).Nodup) :
    ((mapSet m k v).map Prod.fst).Nodup := by
  induction m with
  | nil => simp [mapSet]
  | cons q rest ih =>
    simp only [List.map_cons, List.nodup_cons] at h
    by_cases hq : q.1 = k
    · simp only [mapSet, if_pos hq, List.map_cons, List.nodup_cons]
      exact ⟨hq ▸ h.1, h.2⟩
    · simp only [mapSet, if_neg hq, List.map_cons, List.nodup_cons]
      refine ⟨fun hmem => ?_, ih h.2⟩
      obtain ⟨p, hp, hfst⟩ := List.mem_map.mp hmem
      rcases mapSet_mem hp with h1 | h1
      · subst h1
        exact hq hfst.symm
      · have hmm : p.1 ∈ List.map Prod.fst rest :=
          List.mem_map_of_mem Prod.fst h1
        rw [hfst] at hmm
        exact h.1 hmm

lemma mapSet_pairwise {m : List (ℕ × TuioCursor)} {k : ℕ} {v : TuioCursor}
    (hnd : (m.map Prod.fst).Nodup) (hm : m.Pairwise SidNe)
    (hv : ∀ q ∈ m, q.1 ≠ k → v.sessionId ≠ q.2.sessionId) :
    (mapSet m k v).Pairwise SidNe := by
  induction m with
  | nil => simp [mapSet]
  | cons q rest ih =>
    simp only [List.map_cons, List.nodup_cons] at hnd
    rcases List.pairwise_cons.mp hm with ⟨hq_rel, hrest⟩
    by_cases hq : q.1 = k
    · simp only [mapSet, if_pos hq]
      refine List.pairwise_cons.mpr ⟨fun r hr => ?_, hrest⟩
      have hrk : r.1 ≠ k := by
        intro hk
        have hmm : r.1 ∈ List.map Prod.fst rest :=
          List.mem_map_of_mem Prod.fst hr
        rw [hk, ← hq] at hmm
        exact hnd.1 hmm
      exact hv r (List.mem_cons_of_mem _ hr) hrk
    · simp only [mapSet, if_neg hq]
      refine List.pairwise_cons.mpr ⟨fun r hr => ?_, ?_⟩
      · rcases mapSet_mem hr with h1 | h1
        · subst h1
          exact (hv q (List.mem_cons_self _ _) hq).symm
        · exact hq_rel r h1
      · exact ih hnd.2 hrest
          (fun r hr hrk => hv r (List.mem_cons_of_mem _ hr) hrk)

lemma mapGet_mem {m : List (ℕ × TuioCursor)} {k : ℕ} {c : TuioCursor}
    (h : mapGet m k = some c) : (k, c) ∈ m := by
  unfold mapGet at h
  obtain ⟨p, hp, hpc⟩ := Option.map_eq_some'.mp h
  have hmem := List.mem_of_find?_eq_some hp
  have hkey : p.1 = k := by simpa using List.find?_some hp
  have hpe : p = (k, c) := by
    cases p
    simp_all
  exact hpe ▸ hmem

lemma applyTouch_inv (s : RouterState) (e : TouchEvt) (hs : Inv s)
    (hcnt : isStart e = true → s.counter + 1 ≤ 10000) :
    Inv (applyTouch s e) ∧
      (applyTouch s e).counter = s.counter + (if isStart e then 1 else 0) := by
  obtain ⟨hnd, hbound, hpw⟩ := hs
  cases he : e.type
  case start =>
    have hc : s.counter + 1 ≤ 10000 := hcnt (by simp [isStart, he])
    simp only [applyTouch, he, createNewCursor, getNextSessionId]
    rw [if_neg (by omega)]
    refine ⟨⟨mapSet_keys_nodup hnd, ?_, ?_⟩, by simp [isStart, he]⟩
    · intro p hp
      rcases mapSet_mem hp with h1 | h1
      · subst h1
        exact le_rfl
      · exact le_trans (hbound p h1) (Nat.le_succ _)
    · apply mapSet_pairwise hnd hpw
      intro q hq _
      have hb := hbound q hq
      show s.counter + 1 ≠ q.2.sessionId
      omega
  case move =>
    simp only [applyTouch, he]
    cases hg : mapGet s.cursors e.id with
    | none =>
      exact ⟨⟨hnd, hbound, hpw⟩, by simp [isStart, he]⟩
    | some existing =>
      have hmem := mapGet_mem hg
      have hsid := updateCursorPhysics_sessionId existing e.x e.y e.now
      refine ⟨⟨mapSet_keys_nodup hnd, ?_, ?_⟩, by simp [isStart, he]⟩
      · intro p hp
        rcases mapSet_mem hp with h1 | h1
        · subst h1
          show (updateCursorPhysics existing e.x e.y e.now).sessionId ≤ s.counter
          rw [hsid]
          exact hbound (e.id, existing) hmem
        · exact hbound p h1
      · apply mapSet_pairwise hnd hpw
        intro q hq hqk
        show (updateCursorPhysics existing e.x e.y e.now).sessionId ≠
          q.2.sessionId
        rw [hsid]
        have hne : (e.id, existing) ≠ q := by
          intro hEq
          subst hEq
          exact hqk rfl
        exact hpw.forall (fun _ _ hab => Ne.symm hab) hmem hq hne
  case fin =>
    have hsub : (mapDelete s.cursors e.id).Sublist s.cursors :=
      List.filter_sublist _
    simp only [applyTouch, he]
    refine ⟨⟨?_, ?_, hpw.sublist hsub⟩, by simp [isStart, he]⟩
    · exact hnd.sublist (hsub.map Prod.fst)
    · intro p hp
      exact hbound p (hsub.mem hp)
  case cancel =>
    have hsub : (mapDelete s.cursors e.id).Sublist s.cursors :=
      List.filter_sublist _
    simp only [applyTouch, he]
    refine ⟨⟨?_, ?_, hpw.sublist hsub⟩, by simp [isStart, he]⟩
    · exact hnd.sublist (hsub.map Prod.fst)
    · intro p hp
      exact hbound p (hsub.mem hp)

lemma applyEvents_inv (es : List TouchEvt) :
    ∀ s : RouterState, Inv s → s.counter + numStarts es ≤ 10000 →
      Inv (applyEvents s es) ∧
        (applyEvents s es).counter = s.counter + numStarts es := by
  induction es with
  | nil =>
    intro s hs _
    exact ⟨hs, by simp [applyEvents, numStarts]⟩
  | cons e rest ih =>
    intro s hs h
    have hns : numStarts (e :: rest) =
        numStarts rest + if isStart e then 1 else 0 :=
      List.countP_cons _ _ _
    have hstep := applyTouch_inv s e hs
      (fun hst => by rw [hns, hst] at h; simp at h; omega)
    have hfold : applyEvents s (e :: rest) =
        applyEvents (applyTouch s e) rest := rfl
    have hc2 : (applyTouch s e).counter + numStarts rest ≤ 10000 := by
      rw [hstep.2]
      rw [hns] at h
      cases hse : isStart e <;> simp [hse] at h ⊢ <;> omega
    obtain ⟨hinv', hcnt'⟩ := ih (applyTouch s e) hstep.1 hc2
    refine ⟨hfold ▸ hinv', ?_⟩
    rw [hfold, hcnt', hstep.2, hns]
    cases isStart e <;> simp <;> omega

/-- C3: over any event sequence performing at most 10000 session-id
acquisitions from a fresh state, every two cursors simultaneously
present in the active-cursor map (i.e. at every prefix of the
sequence) carry distinct session ids. -/
theorem session_ids_distinct (es₁ es₂ : List TouchEvt)
    (h : numStarts (es₁ ++ es₂) ≤ 10000) :
    (applyEvents initState es₁).cursors.Pairwise SidNe := by
  have happ : numStarts (es₁ ++ es₂) = numStarts es₁ + numStarts es₂ :=
    List.countP_append _ _ _
  have h1 : numStarts es₁ ≤ 10000 := by omega
  have hinv : Inv initState :=
    ⟨List.nodup_nil, fun p hp => absurd hp (List.not_mem_nil p),
     List.Pairwise.nil⟩
  exact ((applyEvents_inv es₁ initState hinv
    (by simpa [initState] using h1)).1).2.2

/-- Witness for C3: two starts assign the distinct ids 1 and 2. -/
theorem session_ids_distinct_witness :
    numStarts ([⟨.start, 1, 0, 0, 0⟩, ⟨.start, 2, 0, 0, 0⟩] ++
      ([] : List TouchEvt)) ≤ 10000 ∧
    (applyEvents initState
      [⟨.start, 1, 0, 0, 0⟩, ⟨.start, 2, 0, 0, 0⟩]).cursors.Pairwise SidNe :=
  ⟨by decide,
   session_ids_distinct [⟨.start, 1, 0, 0, 0⟩, ⟨.start, 2, 0, 0, 0⟩] []
     (by decide)⟩

end WebTuio
